import Mathlib

/-!
# To-Do list: the HTTP API and the terminal program

A shallow embedding of `To-Do-List/API/To-Do-List.go` (namespace `API`) and of
`To-Do-List/CLI/To-Do-List.go` (namespace `CLI`), followed by the properties
stated for them.

Conventions of the embedding

* Go's `int` is the 64-bit two's complement integer: values are `Int`s, and the
  additions that can leave its range (`nextID++`, `maxID + 1`) are wrapped by
  `wrapInt`.
* Go strings are Lean `String`s (sequences of Unicode scalar values).
* Package-level variables become fields of a state record that every function
  takes and returns.
* The read/write lock of the task manager is not represented: handlers are
  run one after the other.
* The standard library is represented by its documented outcome: JSON decoding
  of a request body is the decoded value or an error text, `tasks.json` is the
  list it decodes to, `unicode.ToLower` is a parameter `lower`.
-/

namespace ToDo

/-! ## Go library functions used by both programs -/

/-- Largest value of Go's 64-bit `int`. -/
def maxInt : Int := 9223372036854775807

/-- Smallest value of Go's 64-bit `int`. -/
def minInt : Int := -9223372036854775808

/-- Reduction of a mathematical integer to Go's 64-bit `int` (two's complement
wrap-around), applied to the result of every `+` and `++` of the programs. -/
def wrapInt (x : Int) : Int :=
  (x + 9223372036854775808) % 18446744073709551616 - 9223372036854775808

/-- Go `strings.HasPrefix`. -/
def HasPrefix (s pre : String) : Bool := pre.data.isPrefixOf s.data

/-- Go `strings.HasSuffix`. -/
def HasSuffix (s suf : String) : Bool := suf.data.isSuffixOf s.data

/-- Go `strings.TrimPrefix`: `s` without the leading `pre`, or `s` itself. -/
def TrimPrefix (s pre : String) : String :=
  if HasPrefix s pre then ⟨s.data.drop pre.data.length⟩ else s

/-- Go `strings.TrimSuffix`: `s` without the trailing `suf`, or `s` itself. -/
def TrimSuffix (s suf : String) : String :=
  if HasSuffix s suf then ⟨s.data.take (s.data.length - suf.data.length)⟩ else s

/-- Go `strings.ToLower`: every rune is mapped by `unicode.ToLower`, here the
parameter `lower`. -/
def ToLower (lower : Char → Char) (s : String) : String := ⟨s.data.map lower⟩

/-- Search for `sub` at every position of the remaining text. -/
def containsFrom (sub : List Char) : List Char → Bool
  | [] => sub.isPrefixOf []
  | c :: rest => sub.isPrefixOf (c :: rest) || containsFrom sub rest

/-- Go `strings.Contains`. -/
def Contains (s substr : String) : Bool := containsFrom substr.data s.data

/-- Value of a decimal digit. -/
def digitValue (c : Char) : Option Nat :=
  if '0' ≤ c ∧ c ≤ '9' then some (c.toNat - 48) else none

/-- Decimal value of a run of digits, `none` if a character is no digit. -/
def parseDigits : List Char → Nat → Option Nat
  | [], acc => some acc
  | c :: rest, acc =>
    match digitValue c with
    | some d => parseDigits rest (10 * acc + d)
    | none => none

/-- The digits of `strconv.Atoi`'s argument after its sign: at least one decimal
digit, the value within the range of `int`. -/
def parseSigned (neg : Bool) (digits : List Char) : Option Int :=
  match digits with
  | [] => none
  | _ =>
    match parseDigits digits 0 with
    | none => none
    | some n =>
      if neg then
        if (n : Int) ≤ 9223372036854775808 then some (-(n : Int)) else none
      else
        if (n : Int) ≤ 9223372036854775807 then some (n : Int) else none

/-- Go `strconv.Atoi`: an optional sign, then one or more decimal digits, the
value within the range of `int`; `none` stands for the returned error. -/
def Atoi (s : String) : Option Int :=
  match s.data with
  | '+' :: ds => parseSigned false ds
  | '-' :: ds => parseSigned true ds
  | ds => parseSigned false ds

/-! ## The HTTP API (`To-Do-List/API/To-Do-List.go`) -/

namespace API

/-- A to-do item. -/
structure Task where
  ID : Int
  Title : String
  Status : Bool
  Priority : Int
  Deadline : String
  deriving DecidableEq, Repr

/-- The task manager: the task list and the next identifier. -/
structure TaskManager where
  tasks : List Task
  nextID : Int
  deriving DecidableEq, Repr

/-- What `tasks.json` holds, as seen by `loadFromFile`. -/
inductive File where
  /-- `os.ReadFile` fails. -/
  | missing
  /-- `json.Unmarshal` reports an error; `left` is the value it leaves in
  `tm.tasks` (the previous value for a syntax error, the elements decoded so
  far for a type error). -/
  | malformed (left : List Task)
  /-- The file decodes to the list `ts`. -/
  | tasks (ts : List Task)
  deriving DecidableEq, Repr

/-- State of the server process: the package-level `taskManager` and the file
`tasks.json` in the working directory. -/
structure State where
  taskManager : TaskManager
  file : File
  deriving DecidableEq, Repr

/-- Body of `createTask`'s request, decoded. -/
structure NewTask where
  Title : String
  Priority : Int
  Deadline : String
  deriving DecidableEq, Repr

/-- Body of `updateTask`'s request, decoded. -/
structure UpdateData where
  Title : String
  Priority : Int
  Deadline : String
  Status : Bool
  deriving DecidableEq, Repr

/-- An HTTP request as the handlers read it. -/
structure Request where
  /-- `r.Method` -/
  Method : String
  /-- `r.URL.Path` -/
  Path : String
  /-- `r.URL.Query().Get("q")`, empty when the parameter is absent -/
  q : String
  /-- Outcome of decoding `r.Body` into `createTask`'s structure -/
  newTask : Except String NewTask
  /-- Outcome of decoding `r.Body` into `updateTask`'s structure -/
  updateData : Except String UpdateData

/-- What a handler writes after the status line. -/
inductive Body where
  /-- `http.Error`: a plain text -/
  | text (msg : String)
  /-- `{tasks, count}` -/
  | list (tasks : List Task) (count : Nat)
  /-- `{message, task}` -/
  | message (message : String) (task : Task)
  /-- a task object -/
  | task (task : Task)
  /-- `{query, results, count}` -/
  | search (query : String) (results : List Task) (count : Nat)
  /-- nothing -/
  | empty
  deriving DecidableEq, Repr

/-- Status code and body of a response. -/
structure Response where
  status : Nat
  body : Body
  deriving DecidableEq, Repr

/-- `saveToFile`: the whole list is written to `tasks.json`. The write is taken
to succeed; every caller discards the returned error. -/
def saveToFile (s : State) : State :=
  { s with file := File.tasks s.taskManager.tasks }

/-- The loop of `loadFromFile` that finds the largest identifier, started at
`maxID`. -/
def maxIDLoop (maxID : Int) : List Task → Int
  | [] => maxID
  | task :: rest => maxIDLoop (if task.ID > maxID then task.ID else maxID) rest

/-- `loadFromFile`. -/
def loadFromFile (tm : TaskManager) : File → TaskManager
  | File.missing => { tm with tasks := [] }
  | File.malformed left => { tm with tasks := left }
  | File.tasks ts => { tasks := ts, nextID := wrapInt (maxIDLoop 0 ts + 1) }

/-- Start of the process: `taskManager` is `&TaskManager{nextID: 1}` and `main`
calls `loadFromFile`. -/
def startup (f : File) : State :=
  { taskManager := loadFromFile { tasks := [], nextID := 1 } f, file := f }

/-- The scan `for i, task := range tasks { if task.ID == id ... }`: index and
value of the first task with identifier `id`. -/
def scanID (id : Int) : List Task → Option (Nat × Task)
  | [] => none
  | task :: rest =>
    if task.ID = id then some (0, task)
    else (scanID id rest).map (fun p => (p.1 + 1, p.2))

/-- `getAllTasks`. -/
def getAllTasks (s : State) (_r : Request) : State × Response :=
  (s, ⟨200, Body.list s.taskManager.tasks s.taskManager.tasks.length⟩)

/-- `createTask`. -/
def createTask (s : State) (r : Request) : State × Response :=
  match r.newTask with
  | Except.error e => (s, ⟨400, Body.text ("Invalid JSON: " ++ e)⟩)
  | Except.ok newTask =>
    if newTask.Title = "" then (s, ⟨400, Body.text "Title is required"⟩)
    else
      let task : Task :=
        { ID := s.taskManager.nextID
          Title := newTask.Title
          Priority := newTask.Priority
          Deadline := newTask.Deadline
          Status := false }
      let tm : TaskManager :=
        { tasks := s.taskManager.tasks ++ [task]
          nextID := wrapInt (s.taskManager.nextID + 1) }
      (saveToFile { s with taskManager := tm },
        ⟨201, Body.message "Task created successfully" task⟩)

/-- `getTask`. -/
def getTask (s : State) (_r : Request) (idStr : String) : State × Response :=
  match Atoi idStr with
  | none => (s, ⟨400, Body.text "Invalid task ID"⟩)
  | some id =>
    match scanID id s.taskManager.tasks with
    | some (_, task) => (s, ⟨200, Body.task task⟩)
    | none => (s, ⟨404, Body.text "Task not found"⟩)

/-- The assignments `updateTask` makes to the matching entry. -/
def applyUpdate (task : Task) (updateData : UpdateData) : Task :=
  let task := if updateData.Title ≠ "" then { task with Title := updateData.Title } else task
  let task := if updateData.Priority ≠ 0 then { task with Priority := updateData.Priority } else task
  let task := if updateData.Deadline ≠ "" then { task with Deadline := updateData.Deadline } else task
  { task with Status := updateData.Status }

/-- `updateTask`. -/
def updateTask (s : State) (r : Request) (idStr : String) : State × Response :=
  match Atoi idStr with
  | none => (s, ⟨400, Body.text "Invalid task ID"⟩)
  | some id =>
    match r.updateData with
    | Except.error e => (s, ⟨400, Body.text ("Invalid JSON: " ++ e)⟩)
    | Except.ok updateData =>
      match scanID id s.taskManager.tasks with
      | some (i, task) =>
        let updated := applyUpdate task updateData
        let tm := { s.taskManager with tasks := s.taskManager.tasks.set i updated }
        (saveToFile { s with taskManager := tm },
          ⟨200, Body.message "Task updated successfully" updated⟩)
      | none => (s, ⟨404, Body.text "Task not found"⟩)

/-- `deleteTask`. -/
def deleteTask (s : State) (_r : Request) (idStr : String) : State × Response :=
  match Atoi idStr with
  | none => (s, ⟨400, Body.text "Invalid task ID"⟩)
  | some id =>
    match scanID id s.taskManager.tasks with
    | some (i, task) =>
      let tm :=
        { s.taskManager with
          tasks := s.taskManager.tasks.take i ++ s.taskManager.tasks.drop (i + 1) }
      (saveToFile { s with taskManager := tm },
        ⟨200, Body.message "Task deleted successfully" task⟩)
    | none => (s, ⟨404, Body.text "Task not found"⟩)

/-- `markTaskDone`. -/
def markTaskDone (s : State) (r : Request) (path : String) : State × Response :=
  if r.Method ≠ "PUT" then (s, ⟨405, Body.text "Method not allowed"⟩)
  else
    let idStr := TrimSuffix path "/done"
    match Atoi idStr with
    | none => (s, ⟨400, Body.text "Invalid task ID"⟩)
    | some id =>
      match scanID id s.taskManager.tasks with
      | some (i, task) =>
        let done := { task with Status := true }
        let tm := { s.taskManager with tasks := s.taskManager.tasks.set i done }
        (saveToFile { s with taskManager := tm },
          ⟨200, Body.message "Task marked as done" done⟩)
      | none => (s, ⟨404, Body.text "Task not found"⟩)

/-- The test of `searchHandler`'s loop: the lower-cased title contains the
lower-cased query. -/
def titleMatches (lower : Char → Char) (query : String) (task : Task) : Bool :=
  Contains (ToLower lower task.Title) (ToLower lower query)

/-- `searchHandler`. -/
def searchHandler (lower : Char → Char) (s : State) (r : Request) : State × Response :=
  if r.Method ≠ "GET" then (s, ⟨405, Body.text "Method not allowed"⟩)
  else
    let query := r.q
    if query = "" then (s, ⟨400, Body.text "Query parameter 'q' is required"⟩)
    else
      let results := s.taskManager.tasks.filter (titleMatches lower query)
      (s, ⟨200, Body.search query results results.length⟩)

/-- `tasksHandler`, registered for `/tasks`. -/
def tasksHandler (s : State) (r : Request) : State × Response :=
  if r.Method = "GET" then getAllTasks s r
  else if r.Method = "POST" then createTask s r
  else (s, ⟨405, Body.text "Method not allowed"⟩)

/-- `taskHandler`, registered for `/tasks/`. -/
def taskHandler (s : State) (r : Request) : State × Response :=
  let path := TrimPrefix r.Path "/tasks/"
  if HasSuffix path "/done" then markTaskDone s r path
  else if r.Method = "GET" then getTask s r path
  else if r.Method = "PUT" then updateTask s r path
  else if r.Method = "DELETE" then deleteTask s r path
  else (s, ⟨405, Body.text "Method not allowed"⟩)

/-- The routes `main` registers on the `ServeMux`: `/tasks` and `/tasks/search`
match that path only, `/tasks/` matches every path below it, the longest
pattern wins, and a path without a route is answered 404. -/
def mux (lower : Char → Char) (s : State) (r : Request) : State × Response :=
  if r.Path = "/tasks/search" then searchHandler lower s r
  else if r.Path = "/tasks" then tasksHandler s r
  else if HasPrefix r.Path "/tasks/" then taskHandler s r
  else (s, ⟨404, Body.text "404 page not found"⟩)

/-- `corsMiddleware` around the routes (the headers it sets are not
represented): `OPTIONS` is answered at once. -/
def corsMiddleware (next : State → Request → State × Response)
    (s : State) (r : Request) : State × Response :=
  if r.Method = "OPTIONS" then (s, ⟨200, Body.empty⟩) else next s r

/-- `loggingMiddleware`: the request is passed on, then logged. -/
def loggingMiddleware (next : State → Request → State × Response)
    (s : State) (r : Request) : State × Response :=
  next s r

/-- The `handler` that `main` passes to `http.ListenAndServe`. -/
def handler (lower : Char → Char) : State → Request → State × Response :=
  loggingMiddleware (corsMiddleware (mux lower))

/-- The server handling a sequence of requests one after the other: final
state and the responses in order. -/
def serveAll (lower : Char → Char) : State → List Request → State × List Response
  | s, [] => (s, [])
  | s, r :: rest =>
    let out := handler lower s r
    let later := serveAll lower out.1 rest
    (later.1, out.2 :: later.2)

/-- A new process reading the file the old one left: `main` starts again. -/
def restart (s : State) : State := startup s.file

/-! ### Notions used to state the properties -/

/-- The identifiers of a task list, in list order. -/
def ids (ts : List Task) : List Int := ts.map (fun t => t.ID)

/-- The request is a create request: `POST /tasks`. -/
def isCreate (r : Request) : Bool := r.Method = "POST" && r.Path = "/tasks"

/-- Number of create requests in a sequence. -/
def creates (reqs : List Request) : Nat := reqs.countP isCreate

/-- The identifier a response reports as created, if it is the answer of a
successful create (status 201). -/
def createdID (resp : Response) : Option Int :=
  match resp.body with
  | Body.message _ task => if resp.status = 201 then some task.ID else none
  | _ => none

/-- The identifiers returned by the successful creates, in the order served. -/
def createdIDs (resps : List Response) : List Int := resps.filterMap createdID

/-- The identifier a response reports as deleted, if it is the answer of a
successful delete. -/
def deletedID (resp : Response) : Option Int :=
  match resp.body with
  | Body.message msg task =>
    if resp.status = 200 ∧ msg = "Task deleted successfully" then some task.ID else none
  | _ => none

/-- The identifiers removed by the successful deletes, in the order served. -/
def deletedIDs (resps : List Response) : List Int := resps.filterMap deletedID

/-- The largest number of a list, `none` for the empty list. -/
def largest : List Int → Option Int
  | [] => none
  | x :: rest =>
    match largest rest with
    | none => some x
    | some m => some (max x m)

/-- From the specification's words, not from the code: the largest of the
given identifiers plus one, or 1 if there is none. -/
def specNext (l : List Int) : Int :=
  match largest l with
  | none => 1
  | some m => m + 1

/-- From the specification's words, not from the code: the identifier a create
is expected to return, the largest identifier present plus one, or 1 for the
empty list. -/
def specNextID (ts : List Task) : Int := specNext (ids ts)

/-- From the specification's words, not from the code: the identifier
invariant. Identifiers are pairwise distinct, strictly increasing in list
order, and smaller than the next-id counter. -/
def IdentifierInvariant (tm : TaskManager) : Prop :=
  (ids tm.tasks).Nodup ∧ (ids tm.tasks).Pairwise (fun a b => a < b) ∧
    ∀ t ∈ tm.tasks, t.ID < tm.nextID

/-- The initial files the identifier invariant is stated for: no file (empty
list, counter 1), or a file whose identifiers are positive and strictly
increasing. -/
def OrderedFile : File → Prop
  | File.missing => True
  | File.malformed _ => False
  | File.tasks ts => (∀ t ∈ ts, 0 < t.ID) ∧ (ids ts).Pairwise (fun a b => a < b)

/-- A file that `loadFromFile` reads without an error, or no file. -/
def Loadable : File → Prop
  | File.missing => True
  | File.malformed _ => False
  | File.tasks _ => True

/-- The tasks a file decodes to (none for a missing or malformed file). -/
def File.contents : File → List Task
  | File.tasks ts => ts
  | _ => []

/-- From the specification's words, not from the code: the title contains the
query as a substring when letter case is ignored. Some contiguous piece of the
title equals the query once every character of both is lower-cased. -/
def ContainsIgnoringCase (lower : Char → Char) (title query : String) : Prop :=
  ∃ before piece after, title.data = before ++ piece ++ after ∧
    piece.map lower = query.data.map lower

/-! ### Outcomes of one request -/

/-- Outcome of a request that neither creates nor deletes a task: counter and
identifiers are as before. -/
def Quiet (s : State) (out : State × Response) : Prop :=
  createdID out.2 = none ∧ deletedID out.2 = none ∧
    out.1.taskManager.nextID = s.taskManager.nextID ∧
    ids out.1.taskManager.tasks = ids s.taskManager.tasks

/-- Outcome of a successful delete: one entry is gone, the counter is as before. -/
def Deleted (s : State) (out : State × Response) : Prop :=
  createdID out.2 = none ∧ out.1.taskManager.nextID = s.taskManager.nextID ∧
    ∃ pre task post, deletedID out.2 = some task.ID ∧
      s.taskManager.tasks = pre ++ task :: post ∧ out.1.taskManager.tasks = pre ++ post

/-- Outcome of a successful create: a task with the counter's value is appended
and the counter is incremented. -/
def Created (s : State) (out : State × Response) : Prop :=
  deletedID out.2 = none ∧
    ∃ task, createdID out.2 = some task.ID ∧ task.ID = s.taskManager.nextID ∧
      out.1.taskManager.tasks = s.taskManager.tasks ++ [task] ∧
      out.1.taskManager.nextID = wrapInt (s.taskManager.nextID + 1)

/-- The counter is at least 1 and above every identifier of the list. -/
def CounterAbove (tm : TaskManager) : Prop :=
  1 ≤ tm.nextID ∧ ∀ x ∈ ids tm.tasks, x < tm.nextID

/-! ### Sample inputs -/

/-- The request `POST /tasks` with a body that holds the title only. -/
def postTask (title : String) : Request :=
  { Method := "POST", Path := "/tasks", q := "",
    newTask := Except.ok ⟨title, 0, ""⟩, updateData := Except.ok ⟨title, 0, "", false⟩ }

/-- A request without a body. -/
def bare (method path : String) : Request :=
  { Method := method, Path := path, q := "",
    newTask := Except.error "EOF", updateData := Except.error "EOF" }

/-- The request `PUT` on `path` with the body decoded to `updateData`. -/
def putTask (path : String) (updateData : UpdateData) : Request :=
  { Method := "PUT", Path := path, q := "",
    newTask := Except.ok ⟨updateData.Title, updateData.Priority, updateData.Deadline⟩,
    updateData := Except.ok updateData }

/-- The request `GET /tasks/search?q=query`. -/
def searchFor (query : String) : Request :=
  { Method := "GET", Path := "/tasks/search", q := query,
    newTask := Except.error "EOF", updateData := Except.error "EOF" }

/-- A store with three tasks, the file in step with the list. -/
def sampleState : State :=
  { taskManager :=
      { tasks := [⟨1, "Buy milk", false, 2, "2024.01.01"⟩, ⟨2, "Walk the dog", true, 5, "today"⟩,
          ⟨3, "MILK the cow", false, 0, ""⟩]
        nextID := 4 }
    file := File.tasks [⟨1, "Buy milk", false, 2, "2024.01.01"⟩,
      ⟨2, "Walk the dog", true, 5, "today"⟩, ⟨3, "MILK the cow", false, 0, ""⟩] }

/-- A file of two tasks. -/
def sampleFile : File :=
  File.tasks [⟨2, "x", false, 0, ""⟩, ⟨7, "y", true, 1, ""⟩]

/-- A file with a negative identifier. -/
def negativeIdFile : File :=
  File.tasks [⟨-5, "a", false, 0, ""⟩, ⟨3, "b", false, 0, ""⟩]

/-- A file whose only task has the largest identifier an `int` can hold. -/
def largestIntFile : File :=
  File.tasks [⟨9223372036854775807, "a", false, 0, ""⟩]

end API

/-! ## The terminal program (`To-Do-List/CLI/To-Do-List.go`) -/

namespace CLI

/-- A to-do item of the terminal program: no identifier. -/
structure Task where
  Title : String
  Status : Bool
  Priority : Int
  Deadline : String
  deriving DecidableEq, Repr

/-- The package-level variables. -/
structure State where
  intent : Int
  newtask : String
  key : Int
  List : List Task
  priority : Int
  deadline : String
  LastOutPut : String
  deriving DecidableEq, Repr

end CLI

end ToDo

/-! # Properties -/

namespace ToDo

/-! ## Library functions -/

/-- Within the range of `int` nothing wraps. -/
theorem wrapInt_of_range (x : Int) (hlo : minInt ≤ x) (hhi : x ≤ maxInt) : wrapInt x = x := by
  unfold minInt at hlo
  unfold maxInt at hhi
  unfold wrapInt
  omega

/-- The position-by-position search finds `sub` exactly when `sub` is a contiguous
piece of the text. -/
theorem containsFrom_iff_contiguous (sub s : List Char) :
    containsFrom sub s = true ↔ sub <:+: s := by
  induction s with
  | nil =>
    unfold containsFrom
    rw [List.isPrefixOf_iff_prefix]
    simp
  | cons c rest ih =>
    unfold containsFrom
    rw [Bool.or_eq_true, List.isPrefixOf_iff_prefix, ih, List.infix_cons_iff]

/-- A run of characters that parses as a number holds decimal digits only. -/
theorem parseDigits_chars {digits : List Char} {acc n : Nat}
    (h : parseDigits digits acc = some n) : ∀ c ∈ digits, (digitValue c).isSome = true := by
  induction digits generalizing acc with
  | nil => simp
  | cons d rest ih =>
    unfold parseDigits at h
    cases hd : digitValue d with
    | none => rw [hd] at h; simp at h
    | some v =>
      rw [hd] at h
      intro c hc
      rcases List.mem_cons.mp hc with rfl | hc
      · rw [hd]; rfl
      · exact ih h c hc

/-- After the sign, an accepted number holds decimal digits only. -/
theorem parseSigned_chars {neg : Bool} {digits : List Char} {n : Int}
    (h : parseSigned neg digits = some n) : ∀ c ∈ digits, (digitValue c).isSome = true := by
  unfold parseSigned at h
  split at h
  · simp at h
  · split at h
    · simp at h
    · rename_i m hm
      exact parseDigits_chars hm

/-- A string that `Atoi` accepts holds signs and decimal digits only. -/
theorem Atoi_chars {s : String} {n : Int} (h : Atoi s = some n) :
    ∀ c ∈ s.data, c = '+' ∨ c = '-' ∨ (digitValue c).isSome = true := by
  unfold Atoi at h
  split at h
  · rename_i ds hs
    intro c hc
    rw [hs] at hc
    rcases List.mem_cons.mp hc with rfl | hc
    · exact Or.inl rfl
    · exact Or.inr (Or.inr (parseSigned_chars h c hc))
  · rename_i ds hs
    intro c hc
    rw [hs] at hc
    rcases List.mem_cons.mp hc with rfl | hc
    · exact Or.inr (Or.inl rfl)
    · exact Or.inr (Or.inr (parseSigned_chars h c hc))
  · intro c hc
    exact Or.inr (Or.inr (parseSigned_chars h c hc))

/-- A string that `Atoi` accepts does not end in `/done`. -/
theorem Atoi_not_done {s : String} {n : Int} (h : Atoi s = some n) :
    HasSuffix s "/done" = false := by
  cases hsuf : HasSuffix s "/done" with
  | false => rfl
  | true =>
    unfold HasSuffix at hsuf
    rw [List.isSuffixOf_iff_suffix] at hsuf
    have he : 'e' ∈ s.data := hsuf.subset (by decide)
    rcases Atoi_chars h 'e' he with h1 | h1 | h1
    · exact absurd h1 (by decide)
    · exact absurd h1 (by decide)
    · exact absurd h1 (by decide)

namespace API

/-! ## Routes -/

/-- A request on `/tasks/{id}` with a numeric id reaches `getTask`, `updateTask` or
`deleteTask`, by its method. -/
theorem taskPath_routes (lower : Char → Char) (s : State) (r : Request) (idStr : String)
    (id : Int) (hpath : r.Path = "/tasks/" ++ idStr) (hid : Atoi idStr = some id) :
    (r.Method = "GET" → handler lower s r = getTask s r idStr) ∧
    (r.Method = "PUT" → handler lower s r = updateTask s r idStr) ∧
    (r.Method = "DELETE" → handler lower s r = deleteTask s r idStr) := by
  have hdata : r.Path.data = "/tasks/".data ++ idStr.data := by rw [hpath]; rfl
  have h1 : r.Path ≠ "/tasks/search" := by
    intro h
    have hd : "/tasks/".data ++ idStr.data = "/tasks/".data ++ "search".data := by
      rw [← hdata, h]; rfl
    have : idStr = "search" := String.ext (List.append_cancel_left hd)
    rw [this] at hid
    have hnone : Atoi "search" = none := by decide
    rw [hnone] at hid
    exact Option.noConfusion hid
  have h2 : r.Path ≠ "/tasks" := by
    intro h
    have hd : "/tasks/".data ++ idStr.data = "/tasks".data := by rw [← hdata, h]
    have hl := congrArg List.length hd
    rw [List.length_append] at hl
    have h7 : "/tasks/".data.length = 7 := rfl
    have h6 : "/tasks".data.length = 6 := rfl
    omega
  have h3 : HasPrefix r.Path "/tasks/" = true := by
    unfold HasPrefix
    rw [List.isPrefixOf_iff_prefix, hdata]
    exact List.prefix_append _ _
  have h4 : TrimPrefix r.Path "/tasks/" = idStr := by
    unfold TrimPrefix
    rw [if_pos h3]
    apply String.ext
    show List.drop "/tasks/".data.length r.Path.data = idStr.data
    rw [hdata, List.drop_left]
  have h5 : ¬ (HasSuffix idStr "/done" = true) := by
    rw [Atoi_not_done hid]
    exact Bool.false_ne_true
  refine ⟨?_, ?_, ?_⟩
  · intro hm
    have hopt : r.Method ≠ "OPTIONS" := by rw [hm]; decide
    simp only [handler, loggingMiddleware, corsMiddleware, mux, taskHandler, if_neg hopt,
      if_neg h1, if_neg h2, if_pos h3, h4, if_neg h5, if_pos hm]
  · intro hm
    have hopt : r.Method ≠ "OPTIONS" := by rw [hm]; decide
    have hget : r.Method ≠ "GET" := by rw [hm]; decide
    simp only [handler, loggingMiddleware, corsMiddleware, mux, taskHandler, if_neg hopt,
      if_neg h1, if_neg h2, if_pos h3, h4, if_neg h5, if_neg hget, if_pos hm]
  · intro hm
    have hopt : r.Method ≠ "OPTIONS" := by rw [hm]; decide
    have hget : r.Method ≠ "GET" := by rw [hm]; decide
    have hput : r.Method ≠ "PUT" := by rw [hm]; decide
    simp only [handler, loggingMiddleware, corsMiddleware, mux, taskHandler, if_neg hopt,
      if_neg h1, if_neg h2, if_pos h3, h4, if_neg h5, if_neg hget, if_neg hput, if_pos hm]

/-- The request `POST /tasks` reaches `createTask`. -/
theorem createPath_routes (lower : Char → Char) (s : State) (r : Request)
    (hm : r.Method = "POST") (hpath : r.Path = "/tasks") :
    handler lower s r = createTask s r := by
  have hopt : r.Method ≠ "OPTIONS" := by rw [hm]; decide
  have hget : r.Method ≠ "GET" := by rw [hm]; decide
  have h1 : r.Path ≠ "/tasks/search" := by rw [hpath]; decide
  simp only [handler, loggingMiddleware, corsMiddleware, mux, tasksHandler, if_neg hopt,
    if_neg h1, if_pos hpath, if_neg hget, if_pos hm]

/-- The request `GET /tasks/search` reaches `searchHandler`. -/
theorem searchPath_routes (lower : Char → Char) (s : State) (r : Request)
    (hm : r.Method = "GET") (hpath : r.Path = "/tasks/search") :
    handler lower s r = searchHandler lower s r := by
  have hopt : r.Method ≠ "OPTIONS" := by rw [hm]; decide
  simp only [handler, loggingMiddleware, corsMiddleware, mux, if_neg hopt, if_pos hpath]

/-! ## The scan for an identifier -/

/-- A successful scan splits the list at the first task with the identifier. -/
theorem scanID_some {id : Int} {ts : List Task} {i : Nat} {task : Task}
    (h : scanID id ts = some (i, task)) :
    ∃ pre post, ts = pre ++ task :: post ∧ pre.length = i ∧ task.ID = id ∧
      ∀ t ∈ pre, t.ID ≠ id := by
  induction ts generalizing i with
  | nil => simp [scanID] at h
  | cons a rest ih =>
    unfold scanID at h
    by_cases ha : a.ID = id
    · rw [if_pos ha] at h
      simp only [Option.some.injEq, Prod.mk.injEq] at h
      obtain ⟨hi, ht⟩ := h
      subst hi; subst ht
      exact ⟨[], rest, rfl, rfl, ha, by simp⟩
    · rw [if_neg ha] at h
      cases hrest : scanID id rest with
      | none => rw [hrest] at h; simp at h
      | some p =>
        obtain ⟨j, u⟩ := p
        rw [hrest] at h
        simp only [Option.map_some', Option.some.injEq, Prod.mk.injEq] at h
        obtain ⟨hi, ht⟩ := h
        subst hi; subst ht
        obtain ⟨pre, post, hts, hlen, hid, hpre⟩ := ih hrest
        refine ⟨a :: pre, post, by rw [hts]; rfl, by simp [hlen], hid, ?_⟩
        intro t ht
        rcases List.mem_cons.mp ht with rfl | ht
        · exact ha
        · exact hpre t ht

/-- A failed scan: no task has the identifier. -/
theorem scanID_none {id : Int} {ts : List Task} (h : scanID id ts = none) :
    ∀ t ∈ ts, t.ID ≠ id := by
  induction ts with
  | nil => simp
  | cons a rest ih =>
    unfold scanID at h
    by_cases ha : a.ID = id
    · rw [if_pos ha] at h; simp at h
    · rw [if_neg ha] at h
      intro t ht
      rcases List.mem_cons.mp ht with rfl | ht
      · exact ha
      · exact ih (by simpa using h) t ht

/-- The scan succeeds when some task has the identifier. -/
theorem scanID_isSome {id : Int} {ts : List Task} (h : ∃ t ∈ ts, t.ID = id) :
    ∃ i task, scanID id ts = some (i, task) := by
  cases hs : scanID id ts with
  | none =>
    obtain ⟨t, ht, hid⟩ := h
    exact absurd hid (scanID_none hs t ht)
  | some p => exact ⟨p.1, p.2, rfl⟩

/-- Assignment to the entry after `pre`. -/
theorem set_at_split {α : Type} (pre post : List α) (a b : α) :
    (pre ++ a :: post).set pre.length b = pre ++ b :: post := by
  induction pre with
  | nil => rfl
  | cons x xs ih => simp [List.set, ih]

/-- The slices before and after the entry that follows `pre`, appended. -/
theorem remove_at_split {α : Type} (pre post : List α) (a : α) :
    (pre ++ a :: post).take pre.length ++ (pre ++ a :: post).drop (pre.length + 1)
      = pre ++ post := by
  induction pre with
  | nil => simp
  | cons x xs ih => simp [ih]

/-! ## Update -/

/-- C5: the request `PUT /tasks/{id}` is served by `updateTask`, and an update whose id
matches a task rewrites the first task with that id: the
title, priority and deadline of the request replace the old ones when they are not
empty (not zero), the status of the request always replaces the old one; the id, the
tasks before and after it, the length of the list and the next-id counter stay. -/
theorem updateTask_merges_fields (lower : Char → Char) (s : State) (r : Request)
    (idStr : String) (id : Int) (updateData : UpdateData)
    (hid : Atoi idStr = some id) (hbody : r.updateData = Except.ok updateData)
    (hex : ∃ t ∈ s.taskManager.tasks, t.ID = id) :
    (r.Method = "PUT" → r.Path = "/tasks/" ++ idStr →
      handler lower s r = updateTask s r idStr) ∧
    ∃ pre task post,
      s.taskManager.tasks = pre ++ task :: post ∧ task.ID = id ∧ (∀ t ∈ pre, t.ID ≠ id) ∧
      ∃ updated : Task,
        updated.ID = task.ID ∧
        updated.Title = (if updateData.Title ≠ "" then updateData.Title else task.Title) ∧
        updated.Priority =
          (if updateData.Priority ≠ 0 then updateData.Priority else task.Priority) ∧
        updated.Deadline =
          (if updateData.Deadline ≠ "" then updateData.Deadline else task.Deadline) ∧
        updated.Status = updateData.Status ∧
        (updateTask s r idStr).1.taskManager.tasks = pre ++ updated :: post ∧
        (updateTask s r idStr).1.taskManager.nextID = s.taskManager.nextID ∧
        (updateTask s r idStr).1.taskManager.tasks.length = s.taskManager.tasks.length ∧
        (updateTask s r idStr).2 = ⟨200, Body.message "Task updated successfully" updated⟩ := by
  refine ⟨fun hm hpath => (taskPath_routes lower s r idStr id hpath hid).2.1 hm, ?_⟩
  obtain ⟨i, task, hscan⟩ := scanID_isSome hex
  obtain ⟨pre, post, hts, hlen, htid, hpre⟩ := scanID_some hscan
  refine ⟨pre, task, post, hts, htid, hpre, applyUpdate task updateData, ?_⟩
  have hstate : updateTask s r idStr =
      (saveToFile { s with taskManager :=
          { s.taskManager with tasks := pre ++ applyUpdate task updateData :: post } },
        ⟨200, Body.message "Task updated successfully" (applyUpdate task updateData)⟩) := by
    simp only [updateTask, hid, hbody, hscan]
    rw [hts, ← hlen, set_at_split]
  rw [hstate]
  refine ⟨?_, ?_, ?_, ?_, ?_, rfl, rfl, ?_, rfl⟩
  · unfold applyUpdate; split_ifs <;> rfl
  · unfold applyUpdate; split_ifs <;> rfl
  · unfold applyUpdate; split_ifs <;> rfl
  · unfold applyUpdate; split_ifs <;> rfl
  · unfold applyUpdate; split_ifs <;> rfl
  · simp [saveToFile, hts]

/-- C5 at a sample: `PUT /tasks/2` with a body that names no field keeps title,
priority and deadline of task 2 and sets its status, which was true, to false. -/
theorem updateTask_merges_fields_witness :
    Atoi "2" = some 2 ∧
    handler Char.toLower sampleState (putTask "/tasks/2" ⟨"", 0, "", false⟩) =
      updateTask sampleState (putTask "/tasks/2" ⟨"", 0, "", false⟩) "2" ∧
    (updateTask sampleState (putTask "/tasks/2" ⟨"", 0, "", false⟩) "2").1.taskManager.tasks =
      [⟨1, "Buy milk", false, 2, "2024.01.01"⟩, ⟨2, "Walk the dog", false, 5, "today"⟩,
        ⟨3, "MILK the cow", false, 0, ""⟩] ∧
    ∃ pre task post, sampleState.taskManager.tasks = pre ++ task :: post ∧ task.ID = 2 := by
  obtain ⟨hroute, pre, task, post, hts, hid, -⟩ :=
    updateTask_merges_fields Char.toLower sampleState (putTask "/tasks/2" ⟨"", 0, "", false⟩)
      "2" 2 ⟨"", 0, "", false⟩ (by decide) rfl
      ⟨⟨2, "Walk the dog", true, 5, "today"⟩, by decide, rfl⟩
  exact ⟨by decide, hroute rfl rfl, by decide, pre, task, post, hts, hid⟩

/-! ## Delete -/

/-- A delete whose id matches a task removes the first task with that id, writes the
rest to the file and returns the removed task. -/
theorem deleteTask_found (s : State) (r : Request) (idStr : String) (id : Int)
    (hid : Atoi idStr = some id) (hex : ∃ t ∈ s.taskManager.tasks, t.ID = id) :
    ∃ pre task post,
      s.taskManager.tasks = pre ++ task :: post ∧ task.ID = id ∧
      (∀ t ∈ pre, t.ID ≠ id) ∧
      deleteTask s r idStr =
        (saveToFile { s with taskManager := { s.taskManager with tasks := pre ++ post } },
          ⟨200, Body.message "Task deleted successfully" task⟩) := by
  obtain ⟨i, task, hscan⟩ := scanID_isSome hex
  obtain ⟨pre, post, hts, hlen, htid, hpre⟩ := scanID_some hscan
  refine ⟨pre, task, post, hts, htid, hpre, ?_⟩
  simp only [deleteTask, hid, hscan]
  rw [hts, ← hlen, remove_at_split]

/-- C7: the request `DELETE /tasks/{id}` is served by `deleteTask`, and a delete by id
succeeds when some task has the id: the returned task is the
first task of the list with that id, as it was, and the list afterwards is the old list
without that one entry, the others unchanged and in their order (the counter is
unchanged, the file holds the new list); when no task has the id the answer is 404 and
nothing changes. -/
theorem deleteTask_removes_first_match (lower : Char → Char) (s : State) (r : Request)
    (idStr : String) (id : Int) (hid : Atoi idStr = some id) :
    (r.Method = "DELETE" → r.Path = "/tasks/" ++ idStr →
      handler lower s r = deleteTask s r idStr) ∧
    ((∃ t ∈ s.taskManager.tasks, t.ID = id) →
      ∃ pre task post,
        s.taskManager.tasks = pre ++ task :: post ∧ task.ID = id ∧
        (∀ t ∈ pre, t.ID ≠ id) ∧
        (deleteTask s r idStr).2 = ⟨200, Body.message "Task deleted successfully" task⟩ ∧
        (deleteTask s r idStr).1.taskManager.tasks = pre ++ post ∧
        (deleteTask s r idStr).1.taskManager.nextID = s.taskManager.nextID ∧
        (deleteTask s r idStr).1.file = File.tasks (pre ++ post)) ∧
    ((∀ t ∈ s.taskManager.tasks, t.ID ≠ id) →
      deleteTask s r idStr = (s, ⟨404, Body.text "Task not found"⟩)) := by
  refine ⟨fun hm hpath => (taskPath_routes lower s r idStr id hpath hid).2.2 hm, ?_, ?_⟩
  · intro hex
    obtain ⟨pre, task, post, hts, htid, hpre, hdel⟩ := deleteTask_found s r idStr id hid hex
    refine ⟨pre, task, post, hts, htid, hpre, ?_⟩
    rw [hdel]
    exact ⟨rfl, rfl, rfl, rfl⟩
  · intro hnone
    cases hscan : scanID id s.taskManager.tasks with
    | none => simp only [deleteTask, hid, hscan]
    | some p =>
      obtain ⟨j, u⟩ := p
      obtain ⟨pre, post, hts, -, htid, -⟩ := scanID_some hscan
      exact absurd htid (hnone u (by rw [hts]; simp))

/-- C7 at a sample: `DELETE /tasks/2` removes the second of three tasks, and
`DELETE /tasks/9` is answered 404. -/
theorem deleteTask_removes_first_match_witness :
    Atoi "2" = some 2 ∧
    handler Char.toLower sampleState (bare "DELETE" "/tasks/2") =
      deleteTask sampleState (bare "DELETE" "/tasks/2") "2" ∧
    (deleteTask sampleState (bare "DELETE" "/tasks/2") "2").1.taskManager.tasks =
      [⟨1, "Buy milk", false, 2, "2024.01.01"⟩, ⟨3, "MILK the cow", false, 0, ""⟩] ∧
    (deleteTask sampleState (bare "DELETE" "/tasks/2") "2").2 =
      ⟨200, Body.message "Task deleted successfully" ⟨2, "Walk the dog", true, 5, "today"⟩⟩ ∧
    deleteTask sampleState (bare "DELETE" "/tasks/9") "9" =
      (sampleState, ⟨404, Body.text "Task not found"⟩) := by
  refine ⟨by decide, ?_, by decide, by decide, ?_⟩
  · exact (deleteTask_removes_first_match Char.toLower sampleState (bare "DELETE" "/tasks/2")
      "2" 2 (by decide)).1 rfl rfl
  · exact (deleteTask_removes_first_match Char.toLower sampleState (bare "DELETE" "/tasks/9")
      "9" 9 (by decide)).2.2 (by decide)

/-! ## Error responses -/

/-- A create either leaves the state alone or answers 201. -/
theorem createTask_error_unchanged (s : State) (r : Request) :
    (createTask s r).1 = s ∨ (createTask s r).2.status = 201 := by
  unfold createTask
  split
  · exact Or.inl rfl
  · split_ifs
    · exact Or.inl rfl
    · exact Or.inr rfl

/-- A get leaves the state alone. -/
theorem getTask_unchanged (s : State) (r : Request) (idStr : String) :
    (getTask s r idStr).1 = s := by
  unfold getTask
  split
  · rfl
  · split <;> rfl

/-- An update either leaves the state alone or answers 200. -/
theorem updateTask_error_unchanged (s : State) (r : Request) (idStr : String) :
    (updateTask s r idStr).1 = s ∨ (updateTask s r idStr).2.status = 200 := by
  unfold updateTask
  split
  · exact Or.inl rfl
  · split
    · exact Or.inl rfl
    · split
      · exact Or.inr rfl
      · exact Or.inl rfl

/-- A delete either leaves the state alone or answers 200. -/
theorem deleteTask_error_unchanged (s : State) (r : Request) (idStr : String) :
    (deleteTask s r idStr).1 = s ∨ (deleteTask s r idStr).2.status = 200 := by
  unfold deleteTask
  split
  · exact Or.inl rfl
  · split
    · exact Or.inr rfl
    · exact Or.inl rfl

/-- A mark-done either leaves the state alone or answers 200. -/
theorem markTaskDone_error_unchanged (s : State) (r : Request) (path : String) :
    (markTaskDone s r path).1 = s ∨ (markTaskDone s r path).2.status = 200 := by
  unfold markTaskDone
  split_ifs
  · exact Or.inl rfl
  · simp only
    split
    · exact Or.inl rfl
    · split
      · exact Or.inr rfl
      · exact Or.inl rfl

/-- A search leaves the state alone. -/
theorem searchHandler_unchanged (lower : Char → Char) (s : State) (r : Request) :
    (searchHandler lower s r).1 = s := by
  unfold searchHandler
  split_ifs
  · rfl
  · simp only
    split_ifs <;> rfl

/-- Every request either leaves the state alone or is answered 200 or 201. -/
theorem handler_error_unchanged (lower : Char → Char) (s : State) (r : Request) :
    (handler lower s r).1 = s ∨ (handler lower s r).2.status = 200 ∨
      (handler lower s r).2.status = 201 := by
  unfold handler loggingMiddleware corsMiddleware mux
  split_ifs
  · exact Or.inl rfl
  · exact Or.inl (searchHandler_unchanged lower s r)
  · unfold tasksHandler
    split_ifs
    · exact Or.inl rfl
    · rcases createTask_error_unchanged s r with h | h
      · exact Or.inl h
      · exact Or.inr (Or.inr h)
    · exact Or.inl rfl
  · unfold taskHandler
    simp only
    split_ifs
    · rcases markTaskDone_error_unchanged s r (TrimPrefix r.Path "/tasks/") with h | h
      · exact Or.inl h
      · exact Or.inr (Or.inl h)
    · exact Or.inl (getTask_unchanged s r _)
    · rcases updateTask_error_unchanged s r (TrimPrefix r.Path "/tasks/") with h | h
      · exact Or.inl h
      · exact Or.inr (Or.inl h)
    · rcases deleteTask_error_unchanged s r (TrimPrefix r.Path "/tasks/") with h | h
      · exact Or.inl h
      · exact Or.inr (Or.inl h)
    · exact Or.inl rfl
  · exact Or.inl rfl

/-- C8: a request that is answered 400, 404 or 405 leaves the task list and the next-id
counter (and the file) as they were before it. -/
theorem error_response_leaves_state (lower : Char → Char) (s : State) (r : Request)
    (herr : (handler lower s r).2.status = 400 ∨ (handler lower s r).2.status = 404 ∨
      (handler lower s r).2.status = 405) :
    (handler lower s r).1 = s ∧
      (handler lower s r).1.taskManager.tasks = s.taskManager.tasks ∧
      (handler lower s r).1.taskManager.nextID = s.taskManager.nextID := by
  have hsame : (handler lower s r).1 = s := by
    rcases handler_error_unchanged lower s r with h | h | h
    · exact h
    · rcases herr with e | e | e <;> rw [h] at e <;> exact absurd e (by decide)
    · rcases herr with e | e | e <;> rw [h] at e <;> exact absurd e (by decide)
  rw [hsame]
  exact ⟨rfl, rfl, rfl⟩

/-- C8 at samples: an empty title (400), an unknown id (404) and `GET` on
`/tasks/2/done` (405) leave the sample store as it was. -/
theorem error_response_leaves_state_witness :
    (handler Char.toLower sampleState (postTask "")).2.status = 400 ∧
    (handler Char.toLower sampleState (postTask "")).1 = sampleState ∧
    (handler Char.toLower sampleState (bare "DELETE" "/tasks/9")).2.status = 404 ∧
    (handler Char.toLower sampleState (bare "DELETE" "/tasks/9")).1 = sampleState ∧
    (handler Char.toLower sampleState (bare "GET" "/tasks/2/done")).2.status = 405 ∧
    (handler Char.toLower sampleState (bare "GET" "/tasks/2/done")).1 = sampleState :=
  ⟨by decide,
    (error_response_leaves_state Char.toLower sampleState (postTask "")
      (Or.inl (by decide))).1,
    by decide,
    (error_response_leaves_state Char.toLower sampleState (bare "DELETE" "/tasks/9")
      (Or.inr (Or.inl (by decide)))).1,
    by decide,
    (error_response_leaves_state Char.toLower sampleState (bare "GET" "/tasks/2/done")
      (Or.inr (Or.inr (by decide)))).1⟩

/-! ## Search -/

/-- The test of the search loop holds exactly for the titles that contain the query as
a substring when letter case is ignored. -/
theorem titleMatches_iff (lower : Char → Char) (query : String) (task : Task) :
    titleMatches lower query task = true ↔ ContainsIgnoringCase lower task.Title query := by
  unfold titleMatches Contains ToLower ContainsIgnoringCase
  rw [containsFrom_iff_contiguous]
  constructor
  · rintro ⟨s, t, h⟩
    obtain ⟨l₁, after, h1, h2, h3⟩ := List.map_eq_append_iff.mp h.symm
    obtain ⟨before, piece, h4, h5, h6⟩ := List.map_eq_append_iff.mp h2
    exact ⟨before, piece, after, by rw [h1, h4], h6⟩
  · rintro ⟨before, piece, after, h1, h2⟩
    refine ⟨before.map lower, after.map lower, ?_⟩
    simp only [h1, List.map_append, h2]

/-- C6: the request `GET /tasks/search` is served by `searchHandler`, and a search
(`GET`) with a non-empty query answers 200 with the query, the tasks
that pass the test of the loop, in the order of the task list, and their number; a
task passes exactly when its title contains the query as a substring, letter case
ignored; with an empty or missing query the answer is 400 and the state is unchanged. -/
theorem searchHandler_case_insensitive_substring (lower : Char → Char) (s : State)
    (r : Request) (hget : r.Method = "GET") :
    (r.Path = "/tasks/search" → handler lower s r = searchHandler lower s r) ∧
    (r.q = "" →
      searchHandler lower s r = (s, ⟨400, Body.text "Query parameter 'q' is required"⟩)) ∧
    (r.q ≠ "" →
      ∃ results : List Task,
        searchHandler lower s r = (s, ⟨200, Body.search r.q results results.length⟩) ∧
        results = s.taskManager.tasks.filter (titleMatches lower r.q)) ∧
    (∀ task : Task,
      titleMatches lower r.q task = true ↔ ContainsIgnoringCase lower task.Title r.q) := by
  refine ⟨searchPath_routes lower s r hget, ?_, ?_, fun task => titleMatches_iff lower r.q task⟩
  · intro hq
    simp [searchHandler, hget, hq]
  · intro hq
    exact ⟨_, by simp [searchHandler, hget, hq], rfl⟩

/-- C6 at a sample: the query `mil` returns the tasks titled `Buy milk` and
`MILK the cow`, in that order, with count 2; the empty query is answered 400. -/
theorem searchHandler_case_insensitive_substring_witness :
    (searchFor "mil").Method = "GET" ∧
    handler Char.toLower sampleState (searchFor "mil") =
      (sampleState,
        ⟨200, Body.search "mil"
          [⟨1, "Buy milk", false, 2, "2024.01.01"⟩, ⟨3, "MILK the cow", false, 0, ""⟩] 2⟩) ∧
    ContainsIgnoringCase Char.toLower "Buy milk" "mil" ∧
    searchHandler Char.toLower sampleState (searchFor "") =
      (sampleState, ⟨400, Body.text "Query parameter 'q' is required"⟩) := by
  have h := searchHandler_case_insensitive_substring Char.toLower sampleState
    (searchFor "mil") rfl
  have h0 := searchHandler_case_insensitive_substring Char.toLower sampleState
    (searchFor "") rfl
  exact ⟨rfl, by decide, (h.2.2.2 ⟨1, "Buy milk", false, 2, "2024.01.01"⟩).mp (by decide),
    h0.2.1 rfl⟩

/-! ## Identifiers -/

/-- The loop never returns less than its start value. -/
theorem le_maxIDLoop (m : Int) (ts : List Task) : m ≤ maxIDLoop m ts := by
  induction ts generalizing m with
  | nil => exact le_refl m
  | cons a rest ih =>
    unfold maxIDLoop
    split_ifs with h
    · exact le_trans (le_of_lt h) (ih a.ID)
    · exact ih m

/-- The loop returns at least every identifier of the list. -/
theorem mem_le_maxIDLoop (m : Int) (ts : List Task) : ∀ t ∈ ts, t.ID ≤ maxIDLoop m ts := by
  induction ts generalizing m with
  | nil => simp
  | cons a rest ih =>
    intro t ht
    unfold maxIDLoop
    rcases List.mem_cons.mp ht with rfl | ht
    · split_ifs with h
      · exact le_maxIDLoop _ rest
      · exact le_trans (not_lt.mp h) (le_maxIDLoop m rest)
    · exact ih _ t ht

/-- The loop returns its start value or an identifier of the list. -/
theorem maxIDLoop_attained (m : Int) (ts : List Task) :
    maxIDLoop m ts = m ∨ ∃ t ∈ ts, t.ID = maxIDLoop m ts := by
  induction ts generalizing m with
  | nil => exact Or.inl rfl
  | cons a rest ih =>
    unfold maxIDLoop
    split_ifs with h
    · rcases ih a.ID with h1 | ⟨t, ht, h1⟩
      · exact Or.inr ⟨a, List.mem_cons_self _ _, h1.symm⟩
      · exact Or.inr ⟨t, List.mem_cons_of_mem _ ht, h1⟩
    · rcases ih m with h1 | ⟨t, ht, h1⟩
      · exact Or.inl h1
      · exact Or.inr ⟨t, List.mem_cons_of_mem _ ht, h1⟩

/-- Only the empty list has no largest number. -/
theorem largest_eq_none {l : List Int} (h : largest l = none) : l = [] := by
  cases l with
  | nil => rfl
  | cons x rest =>
    unfold largest at h
    split at h <;> simp at h

/-- The largest number is a member and an upper bound. -/
theorem largest_some {l : List Int} {m : Int} (h : largest l = some m) :
    m ∈ l ∧ ∀ x ∈ l, x ≤ m := by
  induction l generalizing m with
  | nil => simp [largest] at h
  | cons x rest ih =>
    unfold largest at h
    split at h
    · rename_i hrest
      have hnil := largest_eq_none hrest
      subst hnil
      simp only [Option.some.injEq] at h
      subst h
      simp
    · rename_i m0 hrest
      obtain ⟨hm0, hall⟩ := ih hrest
      simp only [Option.some.injEq] at h
      subst h
      constructor
      · rcases le_total x m0 with hx | hx
        · rw [max_eq_right hx]; exact List.mem_cons_of_mem _ hm0
        · rw [max_eq_left hx]; exact List.mem_cons_self _ _
      · intro y hy
        rcases List.mem_cons.mp hy with rfl | hy
        · exact le_max_left _ _
        · exact le_trans (hall y hy) (le_max_right _ _)

/-- Membership in the list of identifiers. -/
theorem mem_ids {ts : List Task} {x : Int} : x ∈ ids ts ↔ ∃ t ∈ ts, t.ID = x := by
  unfold ids
  exact List.mem_map

/-- The identifier the specification expects is the counter `loadFromFile` computes, for
identifiers that are not negative. -/
theorem specNextID_eq_maxIDLoop (ts : List Task) (hpos : ∀ t ∈ ts, 0 ≤ t.ID) :
    specNextID ts = maxIDLoop 0 ts + 1 := by
  unfold specNextID specNext
  cases hl : largest (ids ts) with
  | none =>
    have hnil : ts = [] := by
      have := largest_eq_none hl
      unfold ids at this
      exact List.map_eq_nil_iff.mp this
    subst hnil
    rfl
  | some m =>
    obtain ⟨hm, hall⟩ := largest_some hl
    obtain ⟨t, ht, htm⟩ := mem_ids.mp hm
    have h1 : m ≤ maxIDLoop 0 ts := htm ▸ mem_le_maxIDLoop 0 ts t ht
    have h2 : maxIDLoop 0 ts ≤ m := by
      rcases maxIDLoop_attained 0 ts with h0 | ⟨u, hu, hum⟩
      · rw [h0, ← htm]; exact hpos t ht
      · rw [← hum]; exact hall _ (mem_ids.mpr ⟨u, hu, rfl⟩)
    show m + 1 = maxIDLoop 0 ts + 1
    omega

/-- The expected identifier after a number above all the others has been appended. -/
theorem specNext_append (l : List Int) (c : Int) (hlt : ∀ x ∈ l, x < c) :
    specNext (l ++ [c]) = c + 1 := by
  unfold specNext
  cases hl : largest (l ++ [c]) with
  | none =>
    have := largest_eq_none hl
    simp at this
  | some m =>
    obtain ⟨hm, hall⟩ := largest_some hl
    have h1 : c ≤ m := hall _ (by simp)
    have h2 : m ≤ c := by
      rcases List.mem_append.mp hm with h | h
      · exact le_of_lt (hlt m h)
      · rw [List.mem_singleton.mp h]
    show m + 1 = c + 1
    omega

/-- Every number of a list is below the expected identifier. -/
theorem lt_specNext (l : List Int) : ∀ x ∈ l, x < specNext l := by
  intro x hx
  unfold specNext
  cases hl : largest l with
  | none =>
    rw [largest_eq_none hl] at hx
    simp at hx
  | some m =>
    have := (largest_some hl).2 x hx
    show x < m + 1
    omega

/-- The identifier the specification expects after the counter's value has been
appended. -/
theorem specNextID_append (ts : List Task) (task : Task) (hlt : ∀ t ∈ ts, t.ID < task.ID) :
    specNextID (ts ++ [task]) = task.ID + 1 := by
  have hids : ids (ts ++ [task]) = ids ts ++ [task.ID] := by simp [ids]
  unfold specNextID
  rw [hids]
  apply specNext_append
  intro x hx
  obtain ⟨t, ht, htx⟩ := mem_ids.mp hx
  rw [← htx]
  exact hlt t ht

/-- The expected identifier depends on the identifiers only. -/
theorem specNextID_congr {ts us : List Task} (h : ids us = ids ts) :
    specNextID us = specNextID ts := by
  unfold specNextID
  rw [h]

/-- The counter after a file has been loaded, when no identifier is the largest `int`. -/
theorem startup_tasks_nextID (ts : List Task) (hmax : ∀ t ∈ ts, t.ID < maxInt) :
    (startup (File.tasks ts)).taskManager.nextID = maxIDLoop 0 ts + 1 := by
  show wrapInt (maxIDLoop 0 ts + 1) = maxIDLoop 0 ts + 1
  have h0 : 0 ≤ maxIDLoop 0 ts := le_maxIDLoop 0 ts
  have h1 : maxIDLoop 0 ts < maxInt := by
    rcases maxIDLoop_attained 0 ts with h | ⟨t, ht, h⟩
    · rw [h]; decide
    · rw [← h]; exact hmax t ht
  apply wrapInt_of_range
  · unfold minInt; omega
  · omega

/-- An unchanged state with a response that reports neither a create nor a delete. -/
theorem quiet_of_unchanged {s : State} {out : State × Response} (hs : out.1 = s)
    (hc : createdID out.2 = none) (hd : deletedID out.2 = none) : Quiet s out :=
  ⟨hc, hd, by rw [hs], by rw [hs]⟩

/-- One create. -/
theorem createTask_step (s : State) (r : Request) :
    Quiet s (createTask s r) ∨ Created s (createTask s r) := by
  unfold createTask
  split
  · exact Or.inl (quiet_of_unchanged rfl rfl rfl)
  · split_ifs
    · exact Or.inl (quiet_of_unchanged rfl rfl rfl)
    · refine Or.inr ⟨?_, _, rfl, rfl, rfl, rfl⟩
      simp [deletedID]

/-- One get. -/
theorem getTask_step (s : State) (r : Request) (idStr : String) :
    Quiet s (getTask s r idStr) := by
  unfold getTask
  split
  · exact quiet_of_unchanged rfl rfl rfl
  · split
    · exact quiet_of_unchanged rfl rfl rfl
    · exact quiet_of_unchanged rfl rfl rfl

/-- Assigning a task with the same identifier keeps the identifiers. -/
theorem ids_set_same_ID {ts : List Task} {i : Nat} {id : Int} {task new : Task}
    (hscan : scanID id ts = some (i, task)) (hnew : new.ID = task.ID) :
    ids (ts.set i new) = ids ts := by
  obtain ⟨pre, post, hts, hlen, -, -⟩ := scanID_some hscan
  rw [hts, ← hlen, set_at_split]
  simp [ids, hnew]

/-- An update keeps the identifier. -/
theorem applyUpdate_ID (task : Task) (updateData : UpdateData) :
    (applyUpdate task updateData).ID = task.ID := by
  unfold applyUpdate
  split_ifs <;> rfl

/-- One update. -/
theorem updateTask_step (s : State) (r : Request) (idStr : String) :
    Quiet s (updateTask s r idStr) := by
  unfold updateTask
  split
  · exact quiet_of_unchanged rfl rfl rfl
  · split
    · exact quiet_of_unchanged rfl rfl rfl
    · split
      · rename_i i task hscan
        refine ⟨?_, ?_, rfl, ?_⟩
        · simp [createdID]
        · simp [deletedID]
        · exact ids_set_same_ID hscan (applyUpdate_ID task _)
      · exact quiet_of_unchanged rfl rfl rfl

/-- One mark-done. -/
theorem markTaskDone_step (s : State) (r : Request) (path : String) :
    Quiet s (markTaskDone s r path) := by
  unfold markTaskDone
  split_ifs
  · exact quiet_of_unchanged rfl rfl rfl
  · simp only
    split
    · exact quiet_of_unchanged rfl rfl rfl
    · split
      · rename_i i task hscan
        refine ⟨?_, ?_, rfl, ?_⟩
        · simp [createdID]
        · simp [deletedID]
        · exact ids_set_same_ID hscan rfl
      · exact quiet_of_unchanged rfl rfl rfl

/-- One delete. -/
theorem deleteTask_step (s : State) (r : Request) (idStr : String) :
    Quiet s (deleteTask s r idStr) ∨ Deleted s (deleteTask s r idStr) := by
  unfold deleteTask
  split
  · exact Or.inl (quiet_of_unchanged rfl rfl rfl)
  · split
    · rename_i i task hscan
      obtain ⟨pre, post, hts, hlen, -, -⟩ := scanID_some hscan
      refine Or.inr ⟨by simp [createdID], rfl, pre, task, post, by simp [deletedID], hts, ?_⟩
      show List.take i s.taskManager.tasks ++ List.drop (i + 1) s.taskManager.tasks = _
      rw [hts, ← hlen, remove_at_split]
    · exact Or.inl (quiet_of_unchanged rfl rfl rfl)

/-- One search. -/
theorem searchHandler_step (lower : Char → Char) (s : State) (r : Request) :
    Quiet s (searchHandler lower s r) := by
  unfold searchHandler
  split_ifs
  · exact quiet_of_unchanged rfl rfl rfl
  · simp only
    split_ifs
    · exact quiet_of_unchanged rfl rfl rfl
    · exact quiet_of_unchanged rfl rfl rfl

/-- One request is quiet, a successful `DELETE`, or a successful `POST /tasks`. -/
theorem handler_step (lower : Char → Char) (s : State) (r : Request) :
    Quiet s (handler lower s r) ∨ (r.Method = "DELETE" ∧ Deleted s (handler lower s r)) ∨
      (isCreate r = true ∧ Created s (handler lower s r)) := by
  unfold handler loggingMiddleware corsMiddleware mux
  split_ifs with hopt hsearch htasks hsub
  · exact Or.inl (quiet_of_unchanged rfl rfl rfl)
  · exact Or.inl (searchHandler_step lower s r)
  · unfold tasksHandler
    split_ifs with hget hpost
    · exact Or.inl (quiet_of_unchanged rfl rfl rfl)
    · rcases createTask_step s r with h | h
      · exact Or.inl h
      · exact Or.inr (Or.inr ⟨by simp [isCreate, hpost, htasks], h⟩)
    · exact Or.inl (quiet_of_unchanged rfl rfl rfl)
  · unfold taskHandler
    simp only
    split_ifs with hdone hget hput hdel
    · exact Or.inl (markTaskDone_step s r _)
    · exact Or.inl (getTask_step s r _)
    · exact Or.inl (updateTask_step s r _)
    · rcases deleteTask_step s r (TrimPrefix r.Path "/tasks/") with h | h
      · exact Or.inl h
      · exact Or.inr (Or.inl ⟨hdel, h⟩)
    · exact Or.inl (quiet_of_unchanged rfl rfl rfl)
  · exact Or.inl (quiet_of_unchanged rfl rfl rfl)

/-- Counting the create requests. -/
theorem creates_cons (r : Request) (rest : List Request) :
    creates (r :: rest) = creates rest + (if isCreate r = true then 1 else 0) := by
  unfold creates
  exact List.countP_cons _ _ _

/-- The state after a first request and the rest. -/
theorem serveAll_cons_state (lower : Char → Char) (s : State) (r : Request)
    (rest : List Request) :
    (serveAll lower s (r :: rest)).1 = (serveAll lower (handler lower s r).1 rest).1 := rfl

/-- The responses to a first request and the rest. -/
theorem serveAll_cons_responses (lower : Char → Char) (s : State) (r : Request)
    (rest : List Request) :
    (serveAll lower s (r :: rest)).2 =
      (handler lower s r).2 :: (serveAll lower (handler lower s r).1 rest).2 := rfl

/-- What one request does to a state whose counter is above its identifiers, as long as
the counter is not the largest `int` when a task is created. -/
theorem handler_step_counter (lower : Char → Char) (s : State) (r : Request)
    (rest : List Request) (habove : CounterAbove s.taskManager)
    (hbound : s.taskManager.nextID + creates (r :: rest) ≤ maxInt) :
    CounterAbove (handler lower s r).1.taskManager ∧
    (handler lower s r).1.taskManager.nextID + creates rest ≤ maxInt ∧
    s.taskManager.nextID ≤ (handler lower s r).1.taskManager.nextID ∧
    (∀ c, createdID (handler lower s r).2 = some c →
      c = s.taskManager.nextID ∧
        (handler lower s r).1.taskManager.nextID = s.taskManager.nextID + 1) ∧
    (∀ d, deletedID (handler lower s r).2 = some d → d < s.taskManager.nextID) ∧
    ((ids s.taskManager.tasks).Pairwise (fun a b => a < b) →
      (ids (handler lower s r).1.taskManager.tasks).Pairwise (fun a b => a < b)) ∧
    (r.Method ≠ "DELETE" → s.taskManager.nextID = specNextID s.taskManager.tasks →
      (handler lower s r).1.taskManager.nextID =
        specNextID (handler lower s r).1.taskManager.tasks) ∧
    (createdID (handler lower s r).2 = none →
      (handler lower s r).1.taskManager.nextID = s.taskManager.nextID) := by
  obtain ⟨hone, hlt⟩ := habove
  rw [creates_cons] at hbound
  have hcount : (0 : Int) ≤ ((creates rest : Nat) : Int) := Int.ofNat_nonneg _
  rcases handler_step lower s r with hq | ⟨hdel, hd⟩ | ⟨hcr, hc⟩
  · obtain ⟨hcre, hdele, hnext, hids⟩ := hq
    refine ⟨⟨by rw [hnext]; exact hone, by rw [hnext, hids]; exact hlt⟩, ?_, by rw [hnext],
      ?_, ?_, ?_, ?_, fun _ => hnext⟩
    · rw [hnext]
      split_ifs at hbound <;> push_cast at hbound <;> omega
    · intro c hc; rw [hcre] at hc; simp at hc
    · intro d hd; rw [hdele] at hd; simp at hd
    · intro hp; rw [hids]; exact hp
    · intro _ hspec
      rw [hnext, hspec]
      exact (specNextID_congr hids).symm
  · obtain ⟨hcre, hnext, pre, task, post, hdele, hts, hts1⟩ := hd
    have hsub : List.Sublist (ids (handler lower s r).1.taskManager.tasks)
        (ids s.taskManager.tasks) := by
      rw [hts, hts1]
      unfold ids
      apply List.Sublist.map
      exact List.Sublist.append (List.Sublist.refl pre) (List.sublist_cons_self task post)
    refine ⟨⟨by rw [hnext]; exact hone, ?_⟩, ?_, by rw [hnext], ?_, ?_, ?_, ?_,
      fun _ => hnext⟩
    · intro x hx
      rw [hnext]
      exact hlt x (hsub.subset hx)
    · rw [hnext]
      split_ifs at hbound <;> push_cast at hbound <;> omega
    · intro c hc; rw [hcre] at hc; simp at hc
    · intro d hd
      rw [hdele] at hd
      simp only [Option.some.injEq] at hd
      rw [← hd]
      exact hlt _ (mem_ids.mpr ⟨task, by rw [hts]; simp, rfl⟩)
    · intro hp; exact hp.sublist hsub
    · intro hne; exact absurd hdel hne
  · obtain ⟨hdele, task, hcre, hid, hts1, hnext⟩ := hc
    rw [if_pos hcr] at hbound
    push_cast at hbound
    have hwrap : wrapInt (s.taskManager.nextID + 1) = s.taskManager.nextID + 1 := by
      apply wrapInt_of_range
      · unfold minInt; omega
      · omega
    rw [hwrap] at hnext
    have hids1 : ids (handler lower s r).1.taskManager.tasks =
        ids s.taskManager.tasks ++ [s.taskManager.nextID] := by
      rw [hts1]; simp [ids, hid]
    refine ⟨⟨by rw [hnext]; omega, ?_⟩, by rw [hnext]; omega, by rw [hnext]; omega,
      ?_, ?_, ?_, ?_, ?_⟩
    · intro x hx
      rw [hids1] at hx
      rw [hnext]
      rcases List.mem_append.mp hx with h | h
      · have := hlt x h; omega
      · rw [List.mem_singleton.mp h]; omega
    · intro c hc
      rw [hcre] at hc
      simp only [Option.some.injEq] at hc
      exact ⟨by rw [← hc, hid], hnext⟩
    · intro d hd; rw [hdele] at hd; simp at hd
    · intro hp
      rw [hids1]
      rw [List.pairwise_append]
      refine ⟨hp, List.pairwise_singleton _ _, ?_⟩
      intro a ha b hb
      rw [List.mem_singleton.mp hb]
      exact hlt a ha
    · intro _ _
      rw [hnext, hts1, specNextID_append _ _ (fun t ht => ?_), hid]
      rw [hid]
      exact hlt _ (mem_ids.mpr ⟨t, ht, rfl⟩)
    · intro hnone
      rw [hcre] at hnone
      exact Option.noConfusion hnone

/-- What a sequence of requests does to a state whose counter is above its identifiers,
as long as the counter does not pass the largest `int`. -/
theorem serveAll_counter (lower : Char → Char) (reqs : List Request) :
    ∀ s : State, CounterAbove s.taskManager →
      s.taskManager.nextID + creates reqs ≤ maxInt →
      CounterAbove (serveAll lower s reqs).1.taskManager ∧
      s.taskManager.nextID ≤ (serveAll lower s reqs).1.taskManager.nextID ∧
      (∀ c ∈ createdIDs (serveAll lower s reqs).2, s.taskManager.nextID ≤ c) ∧
      (createdIDs (serveAll lower s reqs).2).Pairwise (fun a b => a < b) ∧
      ((ids s.taskManager.tasks).Pairwise (fun a b => a < b) →
        (ids (serveAll lower s reqs).1.taskManager.tasks).Pairwise (fun a b => a < b)) ∧
      (∀ before after, (serveAll lower s reqs).2 = before ++ after →
        ∀ d ∈ deletedIDs before, ∀ c ∈ createdIDs after, d < c) ∧
      ((∀ q ∈ reqs, q.Method ≠ "DELETE") →
        s.taskManager.nextID = specNextID s.taskManager.tasks →
        (serveAll lower s reqs).1.taskManager.nextID =
          specNextID (serveAll lower s reqs).1.taskManager.tasks) ∧
      (∀ held : List Int, s.taskManager.nextID = specNext held →
        (serveAll lower s reqs).1.taskManager.nextID =
          specNext (held ++ createdIDs (serveAll lower s reqs).2)) := by
  induction reqs with
  | nil =>
    intro s habove _
    refine ⟨habove, le_refl _, ?_, ?_, fun h => h, ?_, fun _ h => h, ?_⟩
    · intro c hc; simp [serveAll, createdIDs] at hc
    · simp [serveAll, createdIDs]
    · intro before after hsplit d hd
      have hnil : before = [] := by
        have h : ([] : List Response) = before ++ after := hsplit
        exact (List.append_eq_nil.mp h.symm).1
      rw [hnil] at hd
      simp [deletedIDs] at hd
    · intro held hheld
      have hnone : createdIDs (serveAll lower s []).2 = [] := rfl
      rw [hnone, List.append_nil]
      exact hheld
  | cons r rest ih =>
    intro s habove hbound
    obtain ⟨h1, h2, h3, h4, h5, h6, h7, h8⟩ :=
      handler_step_counter lower s r rest habove hbound
    obtain ⟨i1, i2, i3, i4, i5, i6, i7, i8⟩ := ih (handler lower s r).1 h1 h2
    rw [serveAll_cons_state, serveAll_cons_responses]
    have hcreated : ∀ c ∈ createdIDs ((handler lower s r).2 ::
        (serveAll lower (handler lower s r).1 rest).2),
        createdID (handler lower s r).2 = some c ∨
          c ∈ createdIDs (serveAll lower (handler lower s r).1 rest).2 := by
      intro c hc
      unfold createdIDs at hc ⊢
      rw [List.filterMap_cons] at hc
      split at hc
      · exact Or.inr hc
      · rename_i b hb
        rcases List.mem_cons.mp hc with h | h
        · exact Or.inl (by rw [hb, h])
        · exact Or.inr h
    refine ⟨i1, le_trans h3 i2, ?_, ?_, fun hp => i5 (h6 hp), ?_, ?_, ?_⟩
    · intro c hc
      rcases hcreated c hc with h | h
      · exact le_of_eq (h4 c h).1.symm
      · exact le_trans h3 (i3 c h)
    · unfold createdIDs
      rw [List.filterMap_cons]
      split
      · exact i4
      · rename_i b hb
        rw [List.pairwise_cons]
        refine ⟨?_, i4⟩
        intro c hc
        obtain ⟨hb1, hb2⟩ := h4 b hb
        have := i3 c hc
        omega
    · intro before after hsplit d hd c hc
      cases before with
      | nil => simp [deletedIDs] at hd
      | cons first before1 =>
        rw [List.cons_append] at hsplit
        obtain ⟨hfirst, hrest⟩ := List.cons.inj hsplit
        have hc1 : c ∈ createdIDs (serveAll lower (handler lower s r).1 rest).2 := by
          rw [hrest]
          unfold createdIDs at hc ⊢
          rw [List.filterMap_append]
          exact List.mem_append_right _ hc
        unfold deletedIDs at hd
        rw [List.filterMap_cons] at hd
        split at hd
        · exact i6 before1 after hrest d hd c hc
        · rename_i b hb
          rcases List.mem_cons.mp hd with h | h
          · have hdl := h5 d (by rw [hfirst, hb, h])
            have := i3 c hc1
            omega
          · exact i6 before1 after hrest d h c hc
    · intro hnodel hspec
      exact i7 (fun q hq => hnodel q (List.mem_cons_of_mem _ hq))
        (h7 (hnodel r (List.mem_cons_self _ _)) hspec)
    · intro held hheld
      unfold createdIDs
      rw [List.filterMap_cons]
      split
      · rename_i hnone
        exact i8 held (by rw [h8 hnone]; exact hheld)
      · rename_i c hc
        obtain ⟨hc1, hc2⟩ := h4 c hc
        have hstep : (handler lower s r).1.taskManager.nextID = specNext (held ++ [c]) := by
          rw [hc2, specNext_append held c (fun x hx => ?_), hc1]
          rw [hc1, hheld]
          exact lt_specNext held x hx
        have := i8 (held ++ [c]) hstep
        rw [List.append_assoc] at this
        exact this

/-- The state `startup` builds from a file that loads, with no identifier the largest
`int`, has its counter above its identifiers. -/
theorem startup_counterAbove (f : File) (hf : Loadable f)
    (hmax : ∀ t ∈ f.contents, t.ID < maxInt) : CounterAbove (startup f).taskManager := by
  cases f with
  | missing =>
    refine ⟨le_refl _, ?_⟩
    intro x hx
    simp [startup, loadFromFile, ids] at hx
  | malformed left => exact absurd hf (by simp [Loadable])
  | tasks ts =>
    have hnext := startup_tasks_nextID ts hmax
    refine ⟨?_, ?_⟩
    · rw [hnext]
      have := le_maxIDLoop 0 ts
      omega
    · intro x hx
      rw [hnext]
      obtain ⟨t, ht, htx⟩ := mem_ids.mp hx
      have := mem_le_maxIDLoop 0 ts t ht
      omega


/-! ## Create -/

/-- A create with a non-empty title appends a task that carries the counter's value,
increments the counter, writes the file and answers 201 with the task. -/
theorem createTask_success (s : State) (r : Request) (newTask : NewTask)
    (hbody : r.newTask = Except.ok newTask) (htitle : newTask.Title ≠ "") :
    createTask s r =
      (saveToFile { s with taskManager :=
          { tasks := s.taskManager.tasks ++
              [⟨s.taskManager.nextID, newTask.Title, false, newTask.Priority, newTask.Deadline⟩]
            nextID := wrapInt (s.taskManager.nextID + 1) } },
        ⟨201, Body.message "Task created successfully"
          ⟨s.taskManager.nextID, newTask.Title, false, newTask.Priority, newTask.Deadline⟩⟩) := by
  unfold createTask
  rw [hbody]
  simp only [if_neg htitle]

/-- C1 as stated fails: started without a file, after two creates and the delete of
task 2 the list holds task 1 only, so the largest id present plus one is 2, and the
next create returns id 3. -/
theorem create_id_not_max_plus_one_after_delete :
    (serveAll Char.toLower (startup File.missing)
        [postTask "a", postTask "b", bare "DELETE" "/tasks/2"]).1.taskManager =
      ⟨[⟨1, "a", false, 0, ""⟩], 3⟩ ∧
    specNextID
        (serveAll Char.toLower (startup File.missing)
          [postTask "a", postTask "b", bare "DELETE" "/tasks/2"]).1.taskManager.tasks = 2 ∧
    (createTask
        (serveAll Char.toLower (startup File.missing)
          [postTask "a", postTask "b", bare "DELETE" "/tasks/2"]).1
        (postTask "c")).2 =
      ⟨201, Body.message "Task created successfully" ⟨3, "c", false, 0, ""⟩⟩ ∧
    createdID
        (createTask
          (serveAll Char.toLower (startup File.missing)
            [postTask "a", postTask "b", bare "DELETE" "/tasks/2"]).1
          (postTask "c")).2 ≠
      some (specNextID
        (serveAll Char.toLower (startup File.missing)
          [postTask "a", postTask "b", bare "DELETE" "/tasks/2"]).1.taskManager.tasks) := by
  decide

/-- C1 amended: in a state reached from startup (no file, or a file that loads and
whose ids are below the largest `int`) by requests that do not take the counter past
the largest `int`, a create with a non-empty title (`POST /tasks`, served by
`createTask`) returns the task whose id is the next-id counter; that id is greater
than every id in the list; when the loaded ids are not negative it is the largest of
the ids loaded at startup and the ids returned by the earlier creates, deleted or not,
plus one (1 if there is none); and it is the largest id present plus one (1 for the
empty list) when moreover no `DELETE` request was served. -/
theorem createTask_returns_counter (lower : Char → Char) (f : File) (reqs : List Request)
    (r : Request) (newTask : NewTask)
    (hf : Loadable f) (hmax : ∀ t ∈ f.contents, t.ID < maxInt)
    (hbound : (startup f).taskManager.nextID + creates reqs ≤ maxInt)
    (hbody : r.newTask = Except.ok newTask) (htitle : newTask.Title ≠ "") :
    (r.Method = "POST" → r.Path = "/tasks" →
      handler lower (serveAll lower (startup f) reqs).1 r =
        createTask (serveAll lower (startup f) reqs).1 r) ∧
    (createTask (serveAll lower (startup f) reqs).1 r).2 =
      ⟨201, Body.message "Task created successfully"
        ⟨(serveAll lower (startup f) reqs).1.taskManager.nextID, newTask.Title, false,
          newTask.Priority, newTask.Deadline⟩⟩ ∧
    (∀ t ∈ (serveAll lower (startup f) reqs).1.taskManager.tasks,
      t.ID < (serveAll lower (startup f) reqs).1.taskManager.nextID) ∧
    ((∀ t ∈ f.contents, 0 ≤ t.ID) →
      (serveAll lower (startup f) reqs).1.taskManager.nextID =
        specNext (ids (startup f).taskManager.tasks ++
          createdIDs (serveAll lower (startup f) reqs).2)) ∧
    ((∀ t ∈ f.contents, 0 ≤ t.ID) → (∀ q ∈ reqs, q.Method ≠ "DELETE") →
      (serveAll lower (startup f) reqs).1.taskManager.nextID =
        specNextID (serveAll lower (startup f) reqs).1.taskManager.tasks) := by
  have habove := startup_counterAbove f hf hmax
  obtain ⟨h1, -, -, -, -, -, h7, h8⟩ := serveAll_counter lower reqs (startup f) habove hbound
  have hstart : (∀ t ∈ f.contents, 0 ≤ t.ID) →
      (startup f).taskManager.nextID = specNextID (startup f).taskManager.tasks := by
    intro hpos
    cases f with
    | missing => rfl
    | malformed left => exact absurd hf (by simp [Loadable])
    | tasks ts =>
      rw [startup_tasks_nextID ts hmax]
      exact (specNextID_eq_maxIDLoop ts hpos).symm
  refine ⟨fun hm hpath => createPath_routes lower _ r hm hpath, ?_, ?_, ?_, ?_⟩
  · rw [createTask_success _ r newTask hbody htitle]
  · intro t ht
    exact h1.2 _ (mem_ids.mpr ⟨t, ht, rfl⟩)
  · intro hpos
    exact h8 _ (hstart hpos)
  · intro hpos hnodel
    exact h7 hnodel (hstart hpos)

/-- C1 amended, at a sample: after a file with ids 2 and 7 is loaded and a create, a
mark-done and a rejected create are served, the next create returns id 9, the largest
id present plus one. -/
theorem createTask_returns_counter_witness :
    (createTask
        (serveAll Char.toLower (startup sampleFile)
          [postTask "a", bare "PUT" "/tasks/2/done", postTask ""]).1
        (postTask "c")).2 =
      ⟨201, Body.message "Task created successfully" ⟨9, "c", false, 0, ""⟩⟩ ∧
    specNextID
        (serveAll Char.toLower (startup sampleFile)
          [postTask "a", bare "PUT" "/tasks/2/done", postTask ""]).1.taskManager.tasks = 9 := by
  have h := createTask_returns_counter Char.toLower sampleFile
    [postTask "a", bare "PUT" "/tasks/2/done", postTask ""] (postTask "c") ⟨"c", 0, ""⟩
    trivial (by decide) (by decide) rfl (by decide)
  refine ⟨h.2.1, ?_⟩
  rw [← h.2.2.2.2 (by decide) (by decide)]
  decide

/-! ## The identifier invariant -/

/-- C2 as stated fails: a file whose only id is 9223372036854775807 has positive,
strictly increasing ids; loading it sets the counter to -9223372036854775808 (the
addition wraps), which is not above the id in the list. -/
theorem identifier_invariant_fails_at_largest_int :
    OrderedFile largestIntFile ∧
    (startup largestIntFile).taskManager =
      ⟨[⟨9223372036854775807, "a", false, 0, ""⟩], -9223372036854775808⟩ ∧
    ¬ IdentifierInvariant
      (serveAll Char.toLower (startup largestIntFile) []).1.taskManager := by
  refine ⟨?_, by decide, ?_⟩
  · unfold OrderedFile largestIntFile
    decide
  · unfold IdentifierInvariant
    decide

/-- C2 amended: from the initial state (no file, or a file whose ids are positive,
strictly increasing and below the largest `int`), after any sequence of requests whose
creates do not take the counter past the largest `int`, the ids of the list are
pairwise distinct, strictly increasing in list order and smaller than the next-id
counter. -/
theorem identifier_invariant_before_wrap (lower : Char → Char) (f : File)
    (reqs : List Request) (hf : OrderedFile f) (hmax : ∀ t ∈ f.contents, t.ID < maxInt)
    (hbound : (startup f).taskManager.nextID + creates reqs ≤ maxInt) :
    IdentifierInvariant (serveAll lower (startup f) reqs).1.taskManager := by
  have hload : Loadable f := by
    cases f with
    | missing => trivial
    | malformed left => exact absurd hf (by simp [OrderedFile])
    | tasks ts => trivial
  have hsorted : (ids (startup f).taskManager.tasks).Pairwise (fun a b => a < b) := by
    cases f with
    | missing => exact List.Pairwise.nil
    | malformed left => exact absurd hf (by simp [OrderedFile])
    | tasks ts => exact hf.2
  have habove := startup_counterAbove f hload hmax
  obtain ⟨h1, -, -, -, h5, -, -, -⟩ := serveAll_counter lower reqs (startup f) habove hbound
  have hp := h5 hsorted
  refine ⟨?_, hp, ?_⟩
  · exact hp.imp (fun h => ne_of_lt h)
  · intro t ht
    exact h1.2 _ (mem_ids.mpr ⟨t, ht, rfl⟩)

/-- C2 amended, at a sample: a file with ids 2 and 7, then a create, the delete of
task 7, a create and a list request leave the ids 2, 8, 9 and the counter 10. -/
theorem identifier_invariant_before_wrap_witness :
    OrderedFile sampleFile ∧
    IdentifierInvariant
      (serveAll Char.toLower (startup sampleFile)
        [postTask "a", bare "DELETE" "/tasks/7", postTask "b", bare "GET" "/tasks"]).1.taskManager ∧
    ids (serveAll Char.toLower (startup sampleFile)
        [postTask "a", bare "DELETE" "/tasks/7", postTask "b",
          bare "GET" "/tasks"]).1.taskManager.tasks = [2, 8, 9] ∧
    (serveAll Char.toLower (startup sampleFile)
        [postTask "a", bare "DELETE" "/tasks/7", postTask "b",
          bare "GET" "/tasks"]).1.taskManager.nextID = 10 := by
  have hf : OrderedFile sampleFile := by
    unfold OrderedFile sampleFile
    decide
  exact ⟨hf, identifier_invariant_before_wrap Char.toLower _ _ hf (by decide) (by decide),
    by decide, by decide⟩

/-! ## Identifiers are not reused -/

/-- C3 as stated fails: after a file whose only id is 9223372036854775807 is loaded,
the first create returns the id -9223372036854775808, which is not greater than the
id that was in the list at startup. -/
theorem created_id_below_startup_id_at_largest_int :
    (startup largestIntFile).taskManager.tasks = [⟨9223372036854775807, "a", false, 0, ""⟩] ∧
    createdIDs (serveAll Char.toLower (startup largestIntFile) [postTask "b"]).2 =
      [-9223372036854775808] ∧
    ¬ (∀ t ∈ (startup largestIntFile).taskManager.tasks,
        ∀ c ∈ createdIDs (serveAll Char.toLower (startup largestIntFile) [postTask "b"]).2,
        t.ID < c) := by
  decide

/-- A file that `json.Unmarshal` rejects after it has stored a task with id 5 leaves the
counter at 1: the first create returns id 1, below the id in the list. -/
theorem malformed_file_keeps_counter :
    (startup (File.malformed [⟨5, "a", false, 0, ""⟩])).taskManager =
      ⟨[⟨5, "a", false, 0, ""⟩], 1⟩ ∧
    createdIDs
        (serveAll Char.toLower (startup (File.malformed [⟨5, "a", false, 0, ""⟩]))
          [postTask "b"]).2 = [1] := by
  decide

/-- C3 amended: after a startup that found no file or loaded the file without error,
with loaded ids below the largest `int`, and for requests whose creates do not take the
counter past the largest `int`: the ids returned by the successful creates are pairwise
distinct, each greater than every id returned by an earlier create and than every id
in the list at startup, and no create returns an id that an earlier delete removed. -/
theorem created_ids_never_reused (lower : Char → Char) (f : File) (reqs : List Request)
    (hf : Loadable f) (hmax : ∀ t ∈ f.contents, t.ID < maxInt)
    (hbound : (startup f).taskManager.nextID + creates reqs ≤ maxInt) :
    (createdIDs (serveAll lower (startup f) reqs).2).Nodup ∧
    (createdIDs (serveAll lower (startup f) reqs).2).Pairwise
      (fun earlier later => earlier < later) ∧
    (∀ t ∈ (startup f).taskManager.tasks,
      ∀ c ∈ createdIDs (serveAll lower (startup f) reqs).2, t.ID < c) ∧
    (∀ before after, (serveAll lower (startup f) reqs).2 = before ++ after →
      ∀ d ∈ deletedIDs before, ∀ c ∈ createdIDs after, c ≠ d) := by
  have habove := startup_counterAbove f hf hmax
  obtain ⟨-, -, h3, h4, -, h6, -, -⟩ := serveAll_counter lower reqs (startup f) habove hbound
  refine ⟨h4.imp (fun h => ne_of_lt h), h4, ?_, ?_⟩
  · intro t ht c hc
    have h1 := habove.2 _ (mem_ids.mpr ⟨t, ht, rfl⟩)
    have h2 := h3 c hc
    omega
  · intro before after hsplit d hd c hc
    exact ne_of_gt (h6 before after hsplit d hd c hc)

/-- C3 amended, at a sample: after a file with ids 2 and 7 is loaded, three creates
with the deletes of tasks 8 and 7 between them return the ids 8, 9 and 10. -/
theorem created_ids_never_reused_witness :
    createdIDs
        (serveAll Char.toLower (startup sampleFile)
          [postTask "a", bare "DELETE" "/tasks/8", postTask "b", bare "DELETE" "/tasks/7",
            postTask "c"]).2 = [8, 9, 10] ∧
    deletedIDs
        (serveAll Char.toLower (startup sampleFile)
          [postTask "a", bare "DELETE" "/tasks/8", postTask "b", bare "DELETE" "/tasks/7",
            postTask "c"]).2 = [8, 7] ∧
    (createdIDs
        (serveAll Char.toLower (startup sampleFile)
          [postTask "a", bare "DELETE" "/tasks/8", postTask "b", bare "DELETE" "/tasks/7",
            postTask "c"]).2).Nodup :=
  ⟨by decide, by decide,
    (created_ids_never_reused Char.toLower sampleFile
      [postTask "a", bare "DELETE" "/tasks/8", postTask "b", bare "DELETE" "/tasks/7",
        postTask "c"] trivial (by decide) (by decide)).1⟩

/-! ## Delete, then restart -/

/-- C4 as stated fails: in the state loaded from a file with the ids -5 and 3, the
delete of task 3 followed by a restart leaves the task with id -5; the largest
remaining id plus one is -4, and the first create returns id 1. -/
theorem restart_counter_ignores_negative_ids :
    (ids (startup negativeIdFile).taskManager.tasks).Nodup ∧
    (deleteTask (startup negativeIdFile)
        (bare "DELETE" "/tasks/3") "3").2 =
      ⟨200, Body.message "Task deleted successfully" ⟨3, "b", false, 0, ""⟩⟩ ∧
    (restart (deleteTask (startup negativeIdFile)
        (bare "DELETE" "/tasks/3") "3").1).taskManager = ⟨[⟨-5, "a", false, 0, ""⟩], 1⟩ ∧
    specNextID
        (restart (deleteTask (startup negativeIdFile)
          (bare "DELETE" "/tasks/3") "3").1).taskManager.tasks = -4 ∧
    (createTask
        (restart (deleteTask (startup negativeIdFile)
          (bare "DELETE" "/tasks/3") "3").1)
        (postTask "c")).2 =
      ⟨201, Body.message "Task created successfully" ⟨1, "c", false, 0, ""⟩⟩ ∧
    createdID
        (createTask
          (restart (deleteTask (startup negativeIdFile)
            (bare "DELETE" "/tasks/3") "3").1)
          (postTask "c")).2 ≠
      some (specNextID
        (restart (deleteTask (startup negativeIdFile)
          (bare "DELETE" "/tasks/3") "3").1).taskManager.tasks) := by
  decide

/-- C4 amended: in a state with pairwise distinct ids, after the delete of an id that is
present (`DELETE /tasks/{id}`, served by `deleteTask`) and a restart from the file the
delete wrote, the loaded list is the list the delete left and no task in it has the
deleted id; the first create after the restart (`POST /tasks`, served by `createTask`)
returns the counter the restart computed; and, when the remaining ids are not negative,
that counter is the largest remaining id plus one (1 if no task remains), the sum taken
in 64-bit arithmetic: exactly that number when the remaining ids are below the largest
`int`. -/
theorem delete_restart_create (lower : Char → Char) (s : State) (r : Request)
    (idStr : String) (id : Int) (r2 : Request) (newTask : NewTask)
    (hnodup : (ids s.taskManager.tasks).Nodup)
    (hid : Atoi idStr = some id) (hex : ∃ t ∈ s.taskManager.tasks, t.ID = id)
    (hbody : r2.newTask = Except.ok newTask) (htitle : newTask.Title ≠ "") :
    (r.Method = "DELETE" → r.Path = "/tasks/" ++ idStr →
      handler lower s r = deleteTask s r idStr) ∧
    (r2.Method = "POST" → r2.Path = "/tasks" →
      handler lower (restart (deleteTask s r idStr).1) r2 =
        createTask (restart (deleteTask s r idStr).1) r2) ∧
    (deleteTask s r idStr).2.status = 200 ∧
    (restart (deleteTask s r idStr).1).taskManager.tasks =
      (deleteTask s r idStr).1.taskManager.tasks ∧
    (∀ t ∈ (restart (deleteTask s r idStr).1).taskManager.tasks, t.ID ≠ id) ∧
    (createTask (restart (deleteTask s r idStr).1) r2).2 =
      ⟨201, Body.message "Task created successfully"
        ⟨(restart (deleteTask s r idStr).1).taskManager.nextID,
          newTask.Title, false, newTask.Priority, newTask.Deadline⟩⟩ ∧
    ((∀ t ∈ s.taskManager.tasks, t.ID ≠ id → 0 ≤ t.ID) →
      (restart (deleteTask s r idStr).1).taskManager.nextID =
        wrapInt (specNextID (restart (deleteTask s r idStr).1).taskManager.tasks)) ∧
    ((∀ t ∈ s.taskManager.tasks, t.ID ≠ id → 0 ≤ t.ID) →
      (∀ t ∈ s.taskManager.tasks, t.ID ≠ id → t.ID < maxInt) →
      (restart (deleteTask s r idStr).1).taskManager.nextID =
        specNextID (restart (deleteTask s r idStr).1).taskManager.tasks) := by
  refine ⟨fun hm hpath => (taskPath_routes lower s r idStr id hpath hid).2.2 hm,
    fun hm hpath => createPath_routes lower _ r2 hm hpath, ?_⟩
  obtain ⟨pre, task, post, hts, htid, hpre, hdel⟩ := deleteTask_found s r idStr id hid hex
  rw [hdel]
  have hrest : (restart (saveToFile { s with taskManager :=
      { s.taskManager with tasks := pre ++ post } })) = startup (File.tasks (pre ++ post)) := rfl
  have htasks : (startup (File.tasks (pre ++ post))).taskManager.tasks = pre ++ post := rfl
  have hnext : (startup (File.tasks (pre ++ post))).taskManager.nextID =
      wrapInt (maxIDLoop 0 (pre ++ post) + 1) := rfl
  have hsub : ∀ t ∈ pre ++ post, t ∈ s.taskManager.tasks := by
    intro t ht
    rw [hts]
    rcases List.mem_append.mp ht with h | h
    · exact List.mem_append_left _ h
    · exact List.mem_append_right _ (List.mem_cons_of_mem _ h)
  have hgone : ∀ t ∈ pre ++ post, t.ID ≠ id := by
    intro t ht
    rcases List.mem_append.mp ht with h | h
    · exact hpre t h
    · intro hcontra
      rw [hts] at hnodup
      unfold ids at hnodup
      rw [List.map_append, List.map_cons] at hnodup
      have h2 := (List.nodup_cons.mp (List.nodup_append.mp hnodup).2.1).1
      apply h2
      rw [htid, ← hcontra]
      exact List.mem_map_of_mem _ h
  rw [hrest, htasks]
  refine ⟨rfl, rfl, hgone, ?_, ?_, ?_⟩
  · rw [createTask_success _ r2 newTask hbody htitle]
  · intro hpos
    rw [hnext, specNextID_eq_maxIDLoop (pre ++ post)
      (fun t ht => hpos t (hsub t ht) (hgone t ht))]
  · intro hpos hmax
    rw [specNextID_eq_maxIDLoop (pre ++ post)
      (fun t ht => hpos t (hsub t ht) (hgone t ht))]
    exact startup_tasks_nextID (pre ++ post)
      (fun t ht => hmax t (hsub t ht) (hgone t ht))

/-- C4 amended, at samples: with the ids 4 and 9, the delete of task 9 and a restart
leave task 4, and the first create returns id 5; with the ids -5 and 3, the delete of
task 3 and a restart leave the task with id -5 and no task with id 3. -/
theorem delete_restart_create_witness :
    (restart (deleteTask (startup (File.tasks [⟨4, "a", false, 0, ""⟩, ⟨9, "b", false, 0, ""⟩]))
        (bare "DELETE" "/tasks/9") "9").1).taskManager.tasks = [⟨4, "a", false, 0, ""⟩] ∧
    (createTask
        (restart (deleteTask (startup (File.tasks [⟨4, "a", false, 0, ""⟩, ⟨9, "b", false, 0, ""⟩]))
          (bare "DELETE" "/tasks/9") "9").1)
        (postTask "c")).2 =
      ⟨201, Body.message "Task created successfully" ⟨5, "c", false, 0, ""⟩⟩ ∧
    (restart (deleteTask (startup (File.tasks [⟨4, "a", false, 0, ""⟩, ⟨9, "b", false, 0, ""⟩]))
        (bare "DELETE" "/tasks/9") "9").1).taskManager.nextID =
      specNextID (restart (deleteTask
        (startup (File.tasks [⟨4, "a", false, 0, ""⟩, ⟨9, "b", false, 0, ""⟩]))
        (bare "DELETE" "/tasks/9") "9").1).taskManager.tasks ∧
    (∀ t ∈ (restart (deleteTask (startup negativeIdFile)
        (bare "DELETE" "/tasks/3") "3").1).taskManager.tasks, t.ID ≠ 3) := by
  have h := delete_restart_create Char.toLower
    (startup (File.tasks [⟨4, "a", false, 0, ""⟩, ⟨9, "b", false, 0, ""⟩]))
    (bare "DELETE" "/tasks/9") "9" 9 (postTask "c") ⟨"c", 0, ""⟩
    (by decide) (by decide) (by decide) rfl (by decide)
  have hneg := delete_restart_create Char.toLower (startup negativeIdFile)
    (bare "DELETE" "/tasks/3") "3" 3 (postTask "c") ⟨"c", 0, ""⟩
    (by decide) (by decide) (by decide) rfl (by decide)
  refine ⟨by decide, ?_, h.2.2.2.2.2.2.2 (by decide) (by decide), hneg.2.2.2.2.1⟩
  rw [h.2.2.2.2.2.1]
  decide

end API

/-! ## The terminal program: removal by position -/

namespace CLI

end CLI

end ToDo
